import Mathlib

/-!
Shallow embedding of the ScriptToScene orchestration core
(src/services/geminiService.ts, src/components/SceneCard.tsx, src/App.tsx)
together with proofs of the specification claims about it.

Conventions: JavaScript strings are Lean `String`s, JS numbers occurring in
parsed JSON are `Rat` (exact values; the doubles involved here are small
integers), thrown JS values are `Thrown`, promises returning `T` or throwing
are `Except Thrown T`, and the nondeterministic environment (remote call
outcomes, `Math.random` jitter) is passed in explicitly.
-/

namespace S2S

/-- Whitespace recognised by JSON.parse: space, tab, line feed, carriage return. -/
def isJsonWs (c : Char) : Bool :=
  c = ' ' || c = '\t' || c = '\n' || c = '\r'

/-- Whitespace class of JavaScript regular expressions and String.prototype.trim
(the WhiteSpace and LineTerminator code points). -/
def isJsWs (c : Char) : Bool :=
  c.toNat == 0x09 || c.toNat == 0x0a || c.toNat == 0x0b || c.toNat == 0x0c ||
  c.toNat == 0x0d || c.toNat == 0x20 || c.toNat == 0xa0 || c.toNat == 0x1680 ||
  (0x2000 ≤ c.toNat && c.toNat ≤ 0x200a) || c.toNat == 0x2028 ||
  c.toNat == 0x2029 || c.toNat == 0x202f || c.toNat == 0x205f ||
  c.toNat == 0x3000 || c.toNat == 0xfeff

/-- Result values of JSON.parse. Object member lists keep source order;
duplicate keys are resolved last-wins at lookup time, as in JavaScript. -/
inductive Json where
  | null
  | bool (b : Bool)
  | num (q : Rat)
  | str (s : String)
  | arr (elems : List Json)
  | obj (members : List (String × Json))

/-- Property lookup `j?.[k]`: defined only on objects, last duplicate wins. -/
def Json.getF (j : Json) (k : String) : Option Json :=
  match j with
  | .obj fs => ((fs.reverse).find? (fun p => p.1 == k)).map (fun p => p.2)
  | _ => none

def skipJsonWs : List Char → List Char
  | [] => []
  | c :: cs => if isJsonWs c then skipJsonWs cs else c :: cs

/-- Longest leading run of decimal digits, as digit values, plus the rest. -/
def takeDigits : List Char → List Nat × List Char
  | [] => ([], [])
  | c :: cs =>
    if c.isDigit then
      let p := takeDigits cs
      ((c.toNat - 48) :: p.1, p.2)
    else ([], c :: cs)

def digitsVal (ds : List Nat) : Nat :=
  ds.foldl (fun a d => a * 10 + d) 0

/-- Optional fraction part ".d+" of a JSON number; a bare dot is a parse error. -/
def pFrac : List Char → Option (List Nat × List Char)
  | '.' :: r =>
    match takeDigits r with
    | ([], _) => none
    | (ds, rest) => some (ds, rest)
  | cs => some ([], cs)

/-- Optional exponent part of a JSON number. -/
def pExp : List Char → Option (Int × List Char)
  | [] => some (0, [])
  | c :: r =>
    if c = 'e' ∨ c = 'E' then
      let p : Int × List Char :=
        match r with
        | '+' :: t => (1, t)
        | '-' :: t => (-1, t)
        | t => (1, t)
      match takeDigits p.2 with
      | ([], _) => none
      | (ds, rest) => some (p.1 * (digitsVal ds : Int), rest)
    else some (0, c :: r)

/-- JSON number grammar: -? (0 | [1-9][0-9]*) frac? exp?, as an exact rational.
The value sign * mantissa * 10 ^ (exponent - fractionLength) is assembled with
mkRat over integer arithmetic. -/
def pNumber (cs : List Char) : Option (Rat × List Char) :=
  let sgn : Int × List Char :=
    match cs with
    | '-' :: r => (-1, r)
    | _ => (1, cs)
  match takeDigits sgn.2 with
  | ([], _) => none
  | (d :: ds, cs2) =>
    if d = 0 ∧ ds ≠ [] then none
    else
      match pFrac cs2 with
      | none => none
      | some (fds, cs3) =>
        match pExp cs3 with
        | none => none
        | some (e, cs4) =>
          let mant : Nat := digitsVal (d :: ds) * 10 ^ fds.length + digitsVal fds
          let num : Int := sgn.1 * (mant : Int) * ((10 ^ e.toNat : Nat) : Int)
          let den : Nat := 10 ^ (fds.length + (-e).toNat)
          some (mkRat num den, cs4)

def hexDigit (c : Char) : Option Nat :=
  if '0' ≤ c ∧ c ≤ '9' then some (c.toNat - 48)
  else if 'a' ≤ c ∧ c ≤ 'f' then some (c.toNat - 87)
  else if 'A' ≤ c ∧ c ≤ 'F' then some (c.toNat - 55)
  else none

def escChar (c : Char) : Option Char :=
  if c = '"' then some '"'
  else if c = '\\' then some '\\'
  else if c = '/' then some '/'
  else if c = 'b' then some (Char.ofNat 8)
  else if c = 'f' then some (Char.ofNat 12)
  else if c = 'n' then some '\n'
  else if c = 'r' then some '\r'
  else if c = 't' then some '\t'
  else none

/-- Body of a JSON string after the opening quote: content and the rest after
the closing quote. Raw control characters are rejected, escapes decoded. -/
def pStringBody (fuel : Nat) (cs : List Char) : Option (List Char × List Char) :=
  match fuel, cs with
  | 0, _ => none
  | _, [] => none
  | fuel + 1, c :: cs =>
    if c = '"' then some ([], cs)
    else if c = '\\' then
      match cs with
      | [] => none
      | e :: cs2 =>
        if e = 'u' then
          match cs2 with
          | h1 :: h2 :: h3 :: h4 :: cs3 =>
            match hexDigit h1, hexDigit h2, hexDigit h3, hexDigit h4 with
            | some a, some b, some c4, some d =>
              (pStringBody fuel cs3).map
                (fun p => (Char.ofNat (((a * 16 + b) * 16 + c4) * 16 + d) :: p.1, p.2))
            | _, _, _, _ => none
          | _ => none
        else
          match escChar e with
          | some ec => (pStringBody fuel cs2).map (fun p => (ec :: p.1, p.2))
          | none => none
    else if c.toNat < 32 then none
    else (pStringBody fuel cs).map (fun p => (c :: p.1, p.2))

mutual

/-- One JSON value, leading whitespace allowed; rest of the input returned. -/
def pValue : Nat → List Char → Option (Json × List Char)
  | 0, _ => none
  | fuel + 1, cs =>
    match skipJsonWs cs with
    | [] => none
    | c :: r =>
      if c = '{' then
        match skipJsonWs r with
        | '}' :: r2 => some (.obj [], r2)
        | r2 =>
          match pMembers fuel r2 with
          | some (fs, r3) => some (.obj fs, r3)
          | none => none
      else if c = '[' then
        match skipJsonWs r with
        | ']' :: r2 => some (.arr [], r2)
        | r2 =>
          match pElems fuel r2 with
          | some (vs, r3) => some (.arr vs, r3)
          | none => none
      else if c = '"' then
        match pStringBody (r.length + 1) r with
        | some (content, r2) => some (.str (String.mk content), r2)
        | none => none
      else if c = 't' then
        match r with
        | 'r' :: 'u' :: 'e' :: r2 => some (.bool true, r2)
        | _ => none
      else if c = 'f' then
        match r with
        | 'a' :: 'l' :: 's' :: 'e' :: r2 => some (.bool false, r2)
        | _ => none
      else if c = 'n' then
        match r with
        | 'u' :: 'l' :: 'l' :: r2 => some (.null, r2)
        | _ => none
      else if c = '-' ∨ c.isDigit then
        match pNumber (c :: r) with
        | some (q, r2) => some (.num q, r2)
        | none => none
      else none

/-- Nonempty member list of a JSON object, up to and including the closing brace. -/
def pMembers : Nat → List Char → Option (List (String × Json) × List Char)
  | 0, _ => none
  | fuel + 1, cs =>
    match skipJsonWs cs with
    | '"' :: r =>
      match pStringBody (r.length + 1) r with
      | some (key, r2) =>
        match skipJsonWs r2 with
        | ':' :: r3 =>
          match pValue fuel r3 with
          | some (v, r4) =>
            match skipJsonWs r4 with
            | ',' :: r5 =>
              (pMembers fuel r5).map (fun p => ((String.mk key, v) :: p.1, p.2))
            | '}' :: r5 => some ([(String.mk key, v)], r5)
            | _ => none
          | none => none
        | _ => none
      | none => none
    | _ => none

/-- Nonempty element list of a JSON array, up to and including the closing bracket. -/
def pElems : Nat → List Char → Option (List Json × List Char)
  | 0, _ => none
  | fuel + 1, cs =>
    match pValue fuel cs with
    | some (v, r) =>
      match skipJsonWs r with
      | ',' :: r2 => (pElems fuel r2).map (fun p => (v :: p.1, p.2))
      | ']' :: r2 => some ([v], r2)
      | _ => none
    | none => none

end

/-- Model of JSON.parse: some value on success, none when the text is not
valid JSON. The fuel bound exceeds any possible recursion depth, since every
two nested parser calls consume at least one input character. -/
def jsonParse (s : String) : Option Json :=
  match pValue (2 * s.length + 2) s.toList with
  | some (j, rest) => if skipJsonWs rest = [] then some j else none
  | none => none

/-! ### JavaScript string helpers used by the source -/

/-- String.prototype.split with a single-character separator; `"".split(c) = [""]`. -/
def jsSplitAux (sep : Char) : List Char → List Char → List String
  | [], acc => [String.mk acc.reverse]
  | c :: cs, acc =>
    if c = sep then String.mk acc.reverse :: jsSplitAux sep cs []
    else jsSplitAux sep cs (c :: acc)

def jsSplit (sep : Char) (s : String) : List String :=
  jsSplitAux sep s.toList []

/-- String.prototype.trim on character lists. -/
def jsTrimList (l : List Char) : List Char :=
  ((l.dropWhile isJsWs).reverse.dropWhile isJsWs).reverse

/-- String.prototype.trim. -/
def jsTrim (s : String) : String :=
  String.mk (jsTrimList s.toList)

/-- Replacement of every maximal whitespace run by one space, i.e.
`.replace(/\s+/g, ' ')`. The flag records whether the previous character
belonged to a whitespace run already emitted. -/
def collapseWsAux (prevWs : Bool) : List Char → List Char
  | [] => []
  | c :: cs =>
    if isJsWs c then
      if prevWs then collapseWsAux true cs
      else ' ' :: collapseWsAux true cs
    else c :: collapseWsAux false cs

def collapseWs (s : String) : String :=
  String.mk (collapseWsAux false s.toList)

/-- The adjacency relation of a collapsed string: never two whitespace
characters next to each other. -/
def NoWsPair (x y : Char) : Prop := ¬(isJsWs x = true ∧ isJsWs y = true)

/-- The claim's reading of the seed-byte extraction: the substring of the
data URL after its first comma, none when no comma occurs. Stated from the
claim's words, to be compared with what videoSubmission actually computes. -/
def substringAfterFirstComma (s : String) : Option String :=
  match s.toList.dropWhile (fun c => c ≠ ',') with
  | [] => none
  | _ :: rest => some (String.mk rest)

/-- String.prototype.toLowerCase (ASCII range, which is all the source compares). -/
def jsToLower (s : String) : String :=
  String.mk (s.toList.map Char.toLower)

/-! ### Resilient remote call wrapper (geminiService.ts, callApiWithRetry) -/

/-- Values thrown by JavaScript code: an Error carrying a message, or any
non-Error value. -/
inductive Thrown where
  | err (message : String)
  | other

/-- Classification of a caught failure as a retriable rate-limit failure,
exactly as in callApiWithRetry: the thrown value is an Error, its message
parses as JSON, and the parsed body has error.status === 'RESOURCE_EXHAUSTED'
or error.code === 429. -/
def isRateLimitError (e : Thrown) : Bool :=
  match e with
  | .other => false
  | .err msg =>
    match jsonParse msg with
    | none => false
    | some body =>
      (match (body.getF "error").bind (fun j => j.getF "status") with
       | some (.str s) => s == "RESOURCE_EXHAUSTED"
       | _ => false)
      ||
      (match (body.getF "error").bind (fun j => j.getF "code") with
       | some (.num q) => q == (429 : Rat)
       | _ => false)

/-- Observable trace of one callApiWithRetry run: its settled result (the
error component is `none` only in the degenerate maxRetries = 0 case, where
the still-unset lastError is thrown), how many times the wrapped operation
was invoked, and the sequence of delays awaited, in milliseconds. -/
structure RetryTrace (α : Type) where
  result : Except (Option Thrown) α
  calls : Nat
  delays : List Rat

/-- Body of the retry loop: `remaining` iterations left, `i` the current
attempt index, `last` the lastError variable. `ops i` is the outcome of the
i-th invocation of the wrapped operation and `jitter i` the value of
`Math.random() * 1000` drawn after the i-th failure. -/
def retryFrom {α : Type} (ops : Nat → Except Thrown α) (jitter : Nat → Rat)
    (initialDelay : Rat) : Nat → Nat → Option Thrown → RetryTrace α
  | 0, _, last => ⟨.error last, 0, []⟩
  | remaining + 1, i, _ =>
    match ops i with
    | .ok v => ⟨.ok v, 1, []⟩
    | .error e =>
      if isRateLimitError e then
        let t := retryFrom ops jitter initialDelay remaining (i + 1) (some e)
        ⟨t.result, t.calls + 1, (initialDelay * 2 ^ i + jitter i) :: t.delays⟩
      else ⟨.error (some e), 1, []⟩

/-- callApiWithRetry from geminiService.ts over an explicit environment. -/
def callApiWithRetry {α : Type} (ops : Nat → Except Thrown α) (jitter : Nat → Rat)
    (maxRetries : Nat) (initialDelay : Rat) : RetryTrace α :=
  retryFrom ops jitter initialDelay maxRetries 0 none

/-! ### Error message extraction (geminiService.ts, getApiErrorMessage) -/

/-- JavaScript truthiness of a JSON value. -/
def jsTruthy : Json → Bool
  | .null => false
  | .bool b => b
  | .num q => q != 0
  | .str s => s != ""
  | .arr _ => true
  | .obj _ => true

/-- JavaScript string coercion of a JSON value, for the template interpolation
of an extracted message (in practice the message is a string). -/
def jsStringOfJson : Json → String
  | .str s => s
  | .bool true => "true"
  | .bool false => "false"
  | .null => "null"
  | .num q => toString q
  | .arr _ => ""
  | .obj _ => "[object Object]"

def unexpectedErrorMsg : String := "An unexpected error occurred. Please try again."

/-- getApiErrorMessage from geminiService.ts. A parsed body of JSON null makes
the property access inside the try block throw, so that case falls back to the
raw message through the catch branch. -/
def getApiErrorMessage (e : Thrown) : String :=
  match e with
  | .other => unexpectedErrorMsg
  | .err msg =>
    match jsonParse msg with
    | none => msg
    | some .null => msg
    | some body =>
      match body.getF "error" with
      | some errObj =>
        if jsTruthy errObj then
          match errObj.getF "message" with
          | some m => if jsTruthy m then jsStringOfJson m else unexpectedErrorMsg
          | none => unexpectedErrorMsg
        else unexpectedErrorMsg
      | none => unexpectedErrorMsg

/-! ### Data model (types.ts) -/

structure Character where
  name : String
  description : String
  imageUrl : Option String
deriving DecidableEq

structure Scene where
  scene_id : String
  location : String
  time : String
  mood : String
  characters : List String
  camera_movement : String
deriving DecidableEq

structure Frame where
  prompt : String
  imageUrl : Option String
deriving DecidableEq

inductive VideoStatus where
  | idle
  | generating
  | done
  | error
deriving DecidableEq

structure VideoState where
  status : VideoStatus
  url : Option String
  message : String
deriving DecidableEq

structure Style where
  id : String
  name : String
  imageUrl : String
  promptModifier : String
deriving DecidableEq

/-- Truthiness of a JS value that is a string, null or undefined (empty string
is falsy). -/
def optTruthy : Option String → Bool
  | some s => s != ""
  | none => false

/-! ### Prompt composition (SceneCard.tsx, basePrompt) -/

/-- Descriptor contributed to the base prompt by one character name of a
scene: the catalog is searched case-insensitively; an entry with a portrait is
described by reference to the provided image, one without by its text
description, and an unmatched name is used literally. -/
def characterDescriptor (catalog : List Character) (charName : String) : String :=
  match catalog.find? (fun c => jsToLower c.name == jsToLower charName) with
  | some c =>
    if optTruthy c.imageUrl then c.name ++ " who looks like the provided image reference"
    else c.name ++ " (" ++ c.description ++ ")"
  | none => charName

/-- The comma-joined character descriptor string of a scene. -/
def characterDetails (catalog : List Character) (names : List String) : String :=
  String.intercalate ", " (names.map (characterDescriptor catalog))

/-- Base prompt of a scene card: style modifier, location, time, mood and
characters filled into the template literal, whitespace runs collapsed, then
trimmed, exactly as computed by the basePrompt memo. -/
def basePrompt (style : Style) (scene : Scene) (catalog : List Character) : String :=
  let details := characterDetails catalog scene.characters
  jsTrim (collapseWs
    (style.promptModifier ++ ". \n    Location: " ++ scene.location ++
     ". Time: " ++ scene.time ++ ". Mood: " ++ scene.mood ++
     ". \n    Characters present: " ++ (if details = "" then "None" else details) ++ "."))

/-! ### Conditioned image synthesis -/

/-- One inline conditioning image: base64 payload and mime type. -/
structure InlinePart where
  data : String
  mimeType : String
deriving DecidableEq

/-- One content part of a multimodal generation request. -/
inductive ReqPart where
  | text (s : String)
  | inlineData (d : InlinePart)
deriving DecidableEq

/-- Modelled from the spec: the content parts of the remote multimodal call
issued by generateImageForPrompt. The copy of geminiService.ts under src/ is
an older two-parameter revision without the conditioningImages parameter that
SceneCard.tsx passes; per the spec the call supplies "any conditioning images
as ordered input parts preceding the text prompt", with the aspect-ratio
directive appended to the prompt text as in the src/ revision. -/
def generateImageRequestParts (prompt : String) (aspect : String)
    (conditioningImages : List InlinePart) : List ReqPart :=
  conditioningImages.map ReqPart.inlineData ++
    [ReqPart.text (prompt ++ ". Aspect ratio: " ++ aspect ++ ".")]

/-- Group 1 of `header.match(/:(.*?);/)`: the text between the first colon and
the first semicolon after it, when both exist. -/
def mimeOfHeader (header : String) : Option String :=
  match header.toList.dropWhile (fun c => c ≠ ':') with
  | [] => none
  | _ :: after =>
    if after.contains ';' then some (String.mk (after.takeWhile (fun c => c ≠ ';')))
    else none

/-- getBase64Data from SceneCard.tsx: splits a data URL at commas into header
and payload, and recovers the mime type from the header, defaulting to
image/png when the header yields no (or an empty) mime type. -/
def getBase64Data (dataUrl : String) : String × String :=
  let parts := jsSplit ',' dataUrl
  let header := parts.headD ""
  let dat := parts.getD 1 ""
  let m := (mimeOfHeader header).getD ""
  (dat, if m = "" then "image/png" else m)

/-- Characters of the catalog that have a portrait and are listed (matched
case-insensitively) on the scene, in catalog order. -/
def relevantCharacters (scene : Scene) (catalog : List Character) : List Character :=
  let sceneCharacterNames := scene.characters.map jsToLower
  catalog.filter (fun c => optTruthy c.imageUrl && sceneCharacterNames.contains (jsToLower c.name))

/-- Inline conditioning parts decoded from the relevant characters' portraits. -/
def characterImages (scene : Scene) (catalog : List Character) : List InlinePart :=
  (relevantCharacters scene catalog).map (fun c =>
    let p := getBase64Data (c.imageUrl.getD "")
    ⟨p.1, p.2⟩)

/-- Which of the two frame generations failed, with the thrown value. -/
inductive StageFailure where
  | startFailed (e : Thrown)
  | endFailed (e : Thrown)

/-- Per-scene frame state plus the card's surfaced error. -/
structure SceneState where
  startFrame : Frame
  endFrame : Frame
  err : Option StageFailure

/-- Arguments of one generateImageForPrompt invocation. -/
structure ImageRequest where
  prompt : String
  aspect : String
  images : List InlinePart
deriving DecidableEq

/-- handleGenerateStartFrame from SceneCard.tsx: issues one image-generation
request conditioned on the relevant character portraits; on success records
the image and returns its url, on failure records the error and re-throws.
The returned list holds the image-generation requests issued. -/
def handleGenerateStartFrame (scene : Scene) (catalog : List Character)
    (st : SceneState) (gen : ImageRequest → Except Thrown String) :
    SceneState × List ImageRequest × Except Thrown String :=
  let req : ImageRequest := ⟨st.startFrame.prompt, "16:9", characterImages scene catalog⟩
  match gen req with
  | .ok url =>
    ({ st with startFrame := { st.startFrame with imageUrl := some url }, err := none },
     [req], .ok url)
  | .error e => ({ st with err := some (.startFailed e) }, [req], .error e)

/-- handleGenerateEndFrame from SceneCard.tsx: issues one image-generation
request conditioned on the decoded start frame followed by the relevant
character portraits; the failure is caught, not re-thrown. -/
def handleGenerateEndFrame (scene : Scene) (catalog : List Character)
    (startFrameImageUrl : String) (st : SceneState)
    (gen : ImageRequest → Except Thrown String) : SceneState × List ImageRequest :=
  let sf := getBase64Data startFrameImageUrl
  let req : ImageRequest :=
    ⟨st.endFrame.prompt, "16:9", ⟨sf.1, sf.2⟩ :: characterImages scene catalog⟩
  match gen req with
  | .ok url =>
    ({ st with endFrame := { st.endFrame with imageUrl := some url }, err := none }, [req])
  | .error e => ({ st with err := some (.endFailed e) }, [req])

/-- handleGenerateImages from SceneCard.tsx: generate the start frame; only
when that returned a (truthy) url, generate the end frame from it. -/
def handleGenerateImages (scene : Scene) (catalog : List Character)
    (st : SceneState) (gen : ImageRequest → Except Thrown String) :
    SceneState × List ImageRequest :=
  let r := handleGenerateStartFrame scene catalog st gen
  match r.2.2 with
  | .error _ => (r.1, r.2.1)
  | .ok url =>
    if url = "" then (r.1, r.2.1)
    else
      let r2 := handleGenerateEndFrame scene catalog url r.1 gen
      (r2.1, r.2.1 ++ r2.2)

/-! ### Video job orchestration (geminiService.ts generateVideoForScene,
SceneCard.tsx handleGenerateVideo) -/

/-- One observation of the remote video job: whether it is done, and the
download URI of `response.generatedVideos[0].video.uri` when present. -/
structure VideoOp where
  done : Bool
  uri : Option String
deriving DecidableEq

/-- The submission request of generateVideoForScene. -/
structure VideoSubmission where
  model : String
  prompt : String
  imageBytes : Option String
  mimeType : String
  numberOfVideos : Nat
deriving DecidableEq

/-- Video job request built from the prompt and the start-frame data URL:
the seed bytes are element 1 of the comma-split of the data URL, the declared
mime type is the image/png constant. -/
def videoSubmission (prompt startFrameBase64 : String) : VideoSubmission :=
  { model := "veo-2.0-generate-001"
    prompt := prompt
    imageBytes := (jsSplit ',' startFrameBase64).get? 1
    mimeType := "image/png"
    numberOfVideos := 1 }

/-- The `while (!operation.done)` loop: starting from the submission's
operation and consuming one further observation per poll, it returns the
first done observation together with the number of waits (= polls) performed,
or none when the observation sequence never reports done (the real loop would
still be waiting). -/
def pollLoop : VideoOp → List VideoOp → Option (VideoOp × Nat)
  | op, rest =>
    if op.done then some (op, 0)
    else
      match rest with
      | [] => none
      | o :: os =>
        match pollLoop o os with
        | some p => some (p.1, p.2 + 1)
        | none => none

/-- Observable trace of one generateVideoForScene run. -/
structure VideoRunTrace where
  submission : VideoSubmission
  statusCalls : Nat
  waitsMs : List Nat
  result : Except String String

/-- generateVideoForScene from geminiService.ts: submit the job, poll every
10000 ms while not done, then extract the download link (failing when it is
missing), fetch it and materialize an object URL. `obs` supplies the job
status returned by the submission followed by the statuses returned by
successive polls; `fetchOk` and `objectUrl` model the download. -/
def generateVideoForScene (prompt startFrameBase64 : String) (obs : List VideoOp)
    (fetchOk : String → Bool) (objectUrl : String → String) : Option VideoRunTrace :=
  match obs with
  | [] => none
  | op0 :: rest =>
    match pollLoop op0 rest with
    | none => none
    | some (final, waits) =>
      let res : Except String String :=
        match final.uri with
        | none => .error "Video generation completed, but no download link was found."
        | some uri =>
          if fetchOk uri then .ok (objectUrl uri)
          else .error "Failed to download the generated video file."
      some ⟨videoSubmission prompt startFrameBase64, 1 + waits, List.replicate waits 10000, res⟩

def videoGenMessage0 : String := "Warming up the virtual cameras..."

def missingStartFrameMsg : String := "Please generate the start frame image first."

/-- Initial video state of a scene card (the useState initializer). -/
def initialVideoState : VideoState := ⟨.idle, none, ""⟩

/-- handleGenerateVideo from SceneCard.tsx: without a (truthy) start frame
image it sets an error and returns with no state transition; otherwise the
video state passes to Generating and then, according to the settled outcome
of generateVideoForScene, to Done with the video url or to Error with a null
url. Returns the list of video states set, in order, and the surfaced error. -/
def handleGenerateVideo (startFrameImageUrl : Option String)
    (outcome : Except String String) : List VideoState × Option String :=
  if optTruthy startFrameImageUrl then
    let generating : VideoState := ⟨.generating, none, videoGenMessage0⟩
    match outcome with
    | .ok url => ([generating, ⟨.done, some url, ""⟩], none)
    | .error msg =>
      ([generating, ⟨.error, none, ""⟩],
       some (msg ++ " This is an experimental feature and may fail. Please try again."))
  else ([], some missingStartFrameMsg)

/-! ### Script decomposition (geminiService.ts parseScriptToScenes and
extractCharactersFromScript, App.tsx handleAnalyzeScript) -/

/-- Settled outcome of one script-analysis operation: its result (parsed JSON
or propagated failure) and how many remote model invocations it issued. -/
structure AnalysisCall where
  result : Except (Option Thrown) Json
  remoteCalls : Nat

def invalidScenesMsg : String := "The AI returned an invalid JSON format for scenes."

def invalidCharactersMsg : String := "The AI returned an invalid JSON format for characters."

/-- Shared tail of parseScriptToScenes and extractCharactersFromScript: the
remote structured-output call goes through callApiWithRetry; the returned
text is trimmed and parsed as JSON, a parse failure raising the given Error
outside of the retry-protected region. -/
def analyzeViaModel (badJsonMsg : String) (remote : Nat → Except Thrown String)
    (jitter : Nat → Rat) : AnalysisCall :=
  let t := callApiWithRetry remote jitter 5 1000
  match t.result with
  | .error e => ⟨.error e, t.calls⟩
  | .ok text =>
    match jsonParse (jsTrim text) with
    | none => ⟨.error (some (.err badJsonMsg)), t.calls⟩
    | some j => ⟨.ok j, t.calls⟩

/-- parseScriptToScenes from geminiService.ts; `remote` gives the text of the
i-th response of the scene-extraction model call. -/
def parseScriptToScenes (remote : Nat → Except Thrown String) (jitter : Nat → Rat) :
    AnalysisCall :=
  analyzeViaModel invalidScenesMsg remote jitter

/-- extractCharactersFromScript from geminiService.ts. -/
def extractCharactersFromScript (remote : Nat → Except Thrown String) (jitter : Nat → Rat) :
    AnalysisCall :=
  analyzeViaModel invalidCharactersMsg remote jitter

def thrownOfOpt : Option Thrown → Thrown
  | some t => t
  | none => .other

/-- Observable outcome of App.tsx handleAnalyzeScript. -/
structure AnalyzeTrace where
  sceneCalls : Nat
  charCalls : Nat
  errorMsg : Option String
  scenes : Option Json
  charactersJson : Option Json

/-- handleAnalyzeScript from App.tsx: an empty or whitespace-only script sets
an error and issues no remote call; otherwise scene and character extraction
both run and a failure of either surfaces as the analysis error (Promise.all
surfaces the first rejection; the model picks the scene failure as the
representative when both fail). -/
def handleAnalyzeScript (script : String) (sceneRemote charRemote : Nat → Except Thrown String)
    (jitter : Nat → Rat) : AnalyzeTrace :=
  if jsTrim script = "" then ⟨0, 0, some "Script cannot be empty.", none, none⟩
  else
    let ps := parseScriptToScenes sceneRemote jitter
    let pc := extractCharactersFromScript charRemote jitter
    match ps.result, pc.result with
    | .ok s, .ok c => ⟨ps.remoteCalls, pc.remoteCalls, none, some s, some c⟩
    | .error e, _ =>
      ⟨ps.remoteCalls, pc.remoteCalls,
       some ("Failed to analyze script: " ++ getApiErrorMessage (thrownOfOpt e)), none, none⟩
    | _, .error e =>
      ⟨ps.remoteCalls, pc.remoteCalls,
       some ("Failed to analyze script: " ++ getApiErrorMessage (thrownOfOpt e)), none, none⟩

/-! ## Lemmas about the retry wrapper -/

/-- Behaviour of the retry loop when every invocation fails and every failure
classifies as a rate limit: all remaining attempts are used, the delay after
the attempt at index i is `d * 2 ^ i` plus that attempt's jitter draw, and
the error finally thrown is the one of the last attempt. -/
lemma retryFrom_all_rate_limited {α : Type} (ops : Nat → Except Thrown α) (e : Nat → Thrown)
    (jitter : Nat → Rat) (d : Rat)
    (hop : ∀ i, ops i = .error (e i)) (hrl : ∀ i, isRateLimitError (e i) = true) :
    ∀ rem i last, retryFrom ops jitter d rem i last =
      ⟨.error (if rem = 0 then last else some (e (i + rem - 1))), rem,
       (List.range rem).map (fun k => d * 2 ^ (i + k) + jitter (i + k))⟩
  | 0, i, last => by simp [retryFrom]
  | rem + 1, i, last => by
    have ih := retryFrom_all_rate_limited ops e jitter d hop hrl rem (i + 1) (some (e i))
    have step : retryFrom ops jitter d (rem + 1) i last =
        ⟨(retryFrom ops jitter d rem (i + 1) (some (e i))).result,
         (retryFrom ops jitter d rem (i + 1) (some (e i))).calls + 1,
         (d * 2 ^ i + jitter i) :: (retryFrom ops jitter d rem (i + 1) (some (e i))).delays⟩ := by
      simp [retryFrom, hop i, hrl i]
    rw [step, ih]
    have hres : (if rem = 0 then some (e i) else some (e (i + 1 + rem - 1)))
        = some (e (i + (rem + 1) - 1)) := by
      rcases Nat.eq_zero_or_pos rem with h | h
      · subst h; simp
      · have h1 : rem ≠ 0 := by omega
        have h2 : i + 1 + rem - 1 = i + (rem + 1) - 1 := by omega
        simp [h1, h2]
    rw [if_neg (Nat.succ_ne_zero rem)]
    simp only [hres]
    congr 1
    rw [List.range_succ_eq_map, List.map_cons, List.map_map]
    refine congrArg₂ _ (by simp) ?_
    refine List.map_congr_left (fun k _ => ?_)
    have h1 : i + 1 + k = i + Nat.succ k := by omega
    simp [Function.comp, h1]

/-! ## Claim theorems -/

/-- C1: for a zero-argument asynchronous operation that fails on every
invocation with a failure classified as rate-limit, callApiWithRetry with
maxRetries = 5 and initialDelay = 1000 invokes the operation the configured
maximum of 5 times, the delay recorded after attempt i is
1000 * 2 ^ i + jitter with jitter in [0, 1000), these delays are monotonically
non-decreasing once jitter is subtracted off, and the failure of the last
attempt is finally propagated. -/
theorem retry_rate_limit_exhausts_attempts {α : Type}
    (ops : Nat → Except Thrown α) (e : Nat → Thrown) (jitter : Nat → Rat)
    (hop : ∀ i, ops i = .error (e i))
    (hrl : ∀ i, isRateLimitError (e i) = true)
    (hjit : ∀ i, 0 ≤ jitter i ∧ jitter i < 1000) :
    (callApiWithRetry ops jitter 5 1000).result = .error (some (e 4)) ∧
    (callApiWithRetry ops jitter 5 1000).calls = 5 ∧
    (callApiWithRetry ops jitter 5 1000).delays
      = (List.range 5).map (fun i => 1000 * 2 ^ i + jitter i) ∧
    (∀ i, i < 5 →
      1000 * 2 ^ i ≤ (callApiWithRetry ops jitter 5 1000).delays.getD i 0 ∧
      (callApiWithRetry ops jitter 5 1000).delays.getD i 0 < 1000 * 2 ^ i + 1000) ∧
    (∀ i j, i ≤ j → j < 5 →
      (callApiWithRetry ops jitter 5 1000).delays.getD i 0 - jitter i ≤
      (callApiWithRetry ops jitter 5 1000).delays.getD j 0 - jitter j) := by
  have h := retryFrom_all_rate_limited ops e jitter 1000 hop hrl 5 0 none
  have hres : callApiWithRetry ops jitter 5 1000
      = ⟨.error (some (e 4)), 5, (List.range 5).map (fun i => 1000 * 2 ^ i + jitter i)⟩ := by
    rw [callApiWithRetry, h]
    norm_num
  have hget : ∀ i, i < 5 →
      ((List.range 5).map (fun i => 1000 * 2 ^ i + jitter i)).getD i 0
        = 1000 * 2 ^ i + jitter i := by
    intro i hi
    simp [List.getD_eq_getElem?_getD, List.getElem?_range hi]
  refine ⟨by rw [hres], by rw [hres], by rw [hres], ?_, ?_⟩
  · intro i hi
    rw [hres]
    simp only [hget i hi]
    have := hjit i
    constructor <;> linarith [this.1, this.2]
  · intro i j hij hj
    rw [hres]
    simp only [hget i (lt_of_le_of_lt hij hj), hget j hj]
    have hpow : (2 : Rat) ^ i ≤ 2 ^ j := pow_le_pow_right₀ one_le_two hij
    have : (1000 : Rat) * 2 ^ i ≤ 1000 * 2 ^ j := by
      have h1000 : (0 : Rat) ≤ 1000 := by norm_num
      exact mul_le_mul_of_nonneg_left hpow h1000
    linarith

/-- Witness for C1 at a concrete rate-limited failure and zero jitter. -/
theorem retry_rate_limit_exhausts_attempts_witness :
    (callApiWithRetry
        (fun _ => (.error (.err "\x7b\"error\":\x7b\"code\":429\x7d\x7d") : Except Thrown Nat))
        (fun _ => 0) 5 1000).result
      = .error (some (.err "\x7b\"error\":\x7b\"code\":429\x7d\x7d")) ∧
    (callApiWithRetry
        (fun _ => (.error (.err "\x7b\"error\":\x7b\"code\":429\x7d\x7d") : Except Thrown Nat))
        (fun _ => 0) 5 1000).calls = 5 := by
  have hc : isRateLimitError (.err "\x7b\"error\":\x7b\"code\":429\x7d\x7d") = true := by decide
  have hj : (0 : Rat) ≤ 0 ∧ (0 : Rat) < 1000 := by norm_num
  have h := retry_rate_limit_exhausts_attempts
    (fun _ => (.error (.err "\x7b\"error\":\x7b\"code\":429\x7d\x7d") : Except Thrown Nat))
    (fun _ => .err "\x7b\"error\":\x7b\"code\":429\x7d\x7d") (fun _ => 0)
    (fun _ => rfl) (fun _ => hc) (fun _ => hj)
  exact ⟨h.1, h.2.1⟩

/-- C2: a failure of the very first invocation that is not classified as a
rate limit (not an Error, message not JSON, or JSON without the
resource-exhaustion signature) is propagated at once: one single invocation,
no waiting, the same failure thrown. -/
theorem retry_fatal_propagates_immediately {α : Type}
    (ops : Nat → Except Thrown α) (jitter : Nat → Rat) (e : Thrown)
    (h0 : ops 0 = .error e) (hf : isRateLimitError e = false) :
    callApiWithRetry ops jitter 5 1000 = ⟨.error (some e), 1, []⟩ := by
  show retryFrom ops jitter 1000 (4 + 1) 0 none = _
  simp [retryFrom, h0, hf]

/-- Witness for C2 at a failure whose message is not JSON. -/
theorem retry_fatal_propagates_immediately_witness :
    callApiWithRetry (fun _ => (.error (.err "boom") : Except Thrown Nat))
        (fun _ => 7) 5 1000
      = ⟨.error (some (.err "boom")), 1, []⟩ :=
  retry_fatal_propagates_immediately
    (fun _ => (.error (.err "boom") : Except Thrown Nat)) (fun _ => 7)
    (.err "boom") rfl (by decide)

/-- C3: for every ordered list of conditioning images, the multimodal request
of generateImageForPrompt consists of those images as input parts, in order,
followed by (hence all preceding) the single text part carrying the prompt
with the aspect-ratio directive appended. -/
theorem generateImage_conditioning_parts_precede_text (prompt aspect : String)
    (imgs : List InlinePart) :
    (generateImageRequestParts prompt aspect imgs).length = imgs.length + 1 ∧
    (generateImageRequestParts prompt aspect imgs)[imgs.length]?
      = some (.text (prompt ++ ". Aspect ratio: " ++ aspect ++ ".")) ∧
    ∀ i, i < imgs.length →
      (generateImageRequestParts prompt aspect imgs)[i]?
        = (imgs[i]?).map ReqPart.inlineData := by
  refine ⟨by simp [generateImageRequestParts], ?_, ?_⟩
  · rw [generateImageRequestParts,
      List.getElem?_append_right (by simp : (imgs.map ReqPart.inlineData).length ≤ imgs.length)]
    simp
  · intro i hi
    rw [generateImageRequestParts, List.getElem?_append_left (by simpa using hi)]
    simp

/-- Witness for C3 at a two-image conditioning list. -/
theorem generateImage_conditioning_parts_witness :
    (generateImageRequestParts "p" "16:9" [⟨"A", "image/png"⟩, ⟨"B", "image/jpeg"⟩])[0]?
      = some (.inlineData ⟨"A", "image/png"⟩) ∧
    (generateImageRequestParts "p" "16:9" [⟨"A", "image/png"⟩, ⟨"B", "image/jpeg"⟩])[1]?
      = some (.inlineData ⟨"B", "image/jpeg"⟩) ∧
    (generateImageRequestParts "p" "16:9" [⟨"A", "image/png"⟩, ⟨"B", "image/jpeg"⟩])[2]?
      = some (.text "p. Aspect ratio: 16:9.") := by
  have h := generateImage_conditioning_parts_precede_text "p" "16:9"
    [⟨"A", "image/png"⟩, ⟨"B", "image/jpeg"⟩]
  refine ⟨?_, ?_, ?_⟩
  · have h0 := h.2.2 0 (by norm_num)
    simpa using h0
  · have h1 := h.2.2 1 (by norm_num)
    simpa using h1
  · have h2 := h.2.1
    simpa using h2

/-- C4: for the status observation sequence not-done, not-done, done-with-uri,
generateVideoForScene waits the fixed 10000 ms interval exactly twice, issues
exactly 3 status calls, and the scene's video state passes from the idle
initial state through Generating to Done carrying the resulting url; for a
completion payload missing the download URI, the run fails, the state passes
to Error and the url stays none. -/
theorem video_poll_done_and_missing_uri (prompt img uri : String)
    (fetchOk : String → Bool) (objectUrl : String → String)
    (himg : img ≠ "") (hfetch : fetchOk uri = true) :
    generateVideoForScene prompt img
        [⟨false, none⟩, ⟨false, none⟩, ⟨true, some uri⟩] fetchOk objectUrl
      = some ⟨videoSubmission prompt img, 3, [10000, 10000], .ok (objectUrl uri)⟩ ∧
    handleGenerateVideo (some img) (.ok (objectUrl uri))
      = ([⟨.generating, none, videoGenMessage0⟩, ⟨.done, some (objectUrl uri), ""⟩], none) ∧
    (initialVideoState
        :: (handleGenerateVideo (some img) (.ok (objectUrl uri))).1).map VideoState.status
      = [.idle, .generating, .done] ∧
    generateVideoForScene prompt img
        [⟨false, none⟩, ⟨false, none⟩, ⟨true, none⟩] fetchOk objectUrl
      = some ⟨videoSubmission prompt img, 3, [10000, 10000],
              .error "Video generation completed, but no download link was found."⟩ ∧
    (handleGenerateVideo (some img)
        (.error "Video generation completed, but no download link was found.")).1
      = [⟨.generating, none, videoGenMessage0⟩, ⟨.error, none, ""⟩] := by
  have ht : optTruthy (some img) = true := by simp [optTruthy, himg]
  refine ⟨?_, ?_, ?_, ?_, ?_⟩
  · simp [generateVideoForScene, pollLoop, hfetch, List.replicate]
  · simp [handleGenerateVideo, ht]
  · simp [handleGenerateVideo, ht, initialVideoState]
  · simp [generateVideoForScene, pollLoop, List.replicate]
  · simp [handleGenerateVideo, ht]

/-- Witness for C4 at a concrete start frame, uri and download environment. -/
theorem video_poll_done_and_missing_uri_witness :
    generateVideoForScene "p" "data:image/png;base64,AA"
        [⟨false, none⟩, ⟨false, none⟩, ⟨true, some "u"⟩] (fun _ => true) (fun s => "blob:" ++ s)
      = some ⟨videoSubmission "p" "data:image/png;base64,AA", 3, [10000, 10000], .ok "blob:u"⟩ ∧
    (initialVideoState
        :: (handleGenerateVideo (some "data:image/png;base64,AA") (.ok "blob:u")).1).map
          VideoState.status
      = [.idle, .generating, .done] := by
  have h := video_poll_done_and_missing_uri "p" "data:image/png;base64,AA" "u"
    (fun _ => true) (fun s => "blob:" ++ s) (by decide) rfl
  exact ⟨h.1, h.2.2.1⟩

/-- C5: every video state set by the orchestration satisfies that status Done
comes with a non-null url and status Error with a null url; and invoking the
handler without an existing start frame image surfaces the error message at
once while setting no video state at all. -/
theorem videoState_done_error_invariant_and_precondition
    (start : Option String) (outcome : Except String String) :
    (∀ s ∈ (handleGenerateVideo start outcome).1,
       (s.status = .done → s.url ≠ none) ∧ (s.status = .error → s.url = none)) ∧
    (optTruthy start = false →
       handleGenerateVideo start outcome = ([], some missingStartFrameMsg)) := by
  constructor
  · intro s hs
    rcases ht : optTruthy start with _ | _
    · simp [handleGenerateVideo, ht] at hs
    · rcases outcome with msg | url
      · simp [handleGenerateVideo, ht] at hs
        rcases hs with rfl | rfl <;> constructor <;> simp
      · simp [handleGenerateVideo, ht] at hs
        rcases hs with rfl | rfl <;> constructor <;> simp
  · intro h
    simp [handleGenerateVideo, h]

/-- Witness for C5: the Done state of a successful run has a non-null url,
and a run without a start frame sets no state and surfaces the message. -/
theorem videoState_invariant_witness :
    ((⟨.done, some "blob:v", ""⟩ : VideoState).status = .done →
      (⟨.done, some "blob:v", ""⟩ : VideoState).url ≠ none) ∧
    handleGenerateVideo none (.ok "blob:v") = ([], some missingStartFrameMsg) := by
  refine ⟨?_, ?_⟩
  · exact ((videoState_done_error_invariant_and_precondition (some "x") (.ok "blob:v")).1
      ⟨.done, some "blob:v", ""⟩ (by decide)).1
  · exact (videoState_done_error_invariant_and_precondition none (.ok "blob:v")).2 rfl

/-- C6: an empty or whitespace-only script makes the analysis handler fail
without issuing any remote call; and a settled remote response whose text is
not valid JSON makes parseScriptToScenes and extractCharactersFromScript
throw their schema errors after exactly one remote invocation, with no retry
of the remote call. -/
theorem script_analysis_empty_and_invalid_json
    (script text : String) (sceneRemote charRemote remote : Nat → Except Thrown String)
    (jitter : Nat → Rat)
    (hempty : jsTrim script = "")
    (hok : remote 0 = .ok text) (hbad : jsonParse (jsTrim text) = none) :
    handleAnalyzeScript script sceneRemote charRemote jitter
      = ⟨0, 0, some "Script cannot be empty.", none, none⟩ ∧
    parseScriptToScenes remote jitter
      = ⟨.error (some (.err invalidScenesMsg)), 1⟩ ∧
    extractCharactersFromScript remote jitter
      = ⟨.error (some (.err invalidCharactersMsg)), 1⟩ := by
  have hcall : callApiWithRetry remote jitter 5 1000 = ⟨.ok text, 1, []⟩ := by
    show retryFrom remote jitter 1000 (4 + 1) 0 none = _
    simp [retryFrom, hok]
  refine ⟨by simp [handleAnalyzeScript, hempty], ?_, ?_⟩
  · simp [parseScriptToScenes, analyzeViaModel, hcall, hbad]
  · simp [extractCharactersFromScript, analyzeViaModel, hcall, hbad]

/-- Witness for C6 at a whitespace-only script and a non-JSON model response. -/
theorem script_analysis_empty_and_invalid_json_witness :
    handleAnalyzeScript "   \n" (fun _ => .ok "x") (fun _ => .ok "x") (fun _ => 0)
      = ⟨0, 0, some "Script cannot be empty.", none, none⟩ ∧
    parseScriptToScenes (fun _ => .ok "not json") (fun _ => 0)
      = ⟨.error (some (.err invalidScenesMsg)), 1⟩ := by
  have h := script_analysis_empty_and_invalid_json "   \n" "not json"
    (fun _ => .ok "x") (fun _ => .ok "x") (fun _ => .ok "not json") (fun _ => 0)
    rfl rfl rfl
  exact ⟨h.1, h.2.1⟩

/-- C9: when start-frame generation fails, the two-stage workflow issues no
end-frame image-generation request (the only request issued is the start
frame's own) and leaves the end frame state unchanged. -/
theorem end_frame_not_attempted_on_start_failure (scene : Scene)
    (catalog : List Character) (st : SceneState)
    (gen : ImageRequest → Except Thrown String) (e : Thrown)
    (h : gen ⟨st.startFrame.prompt, "16:9", characterImages scene catalog⟩ = .error e) :
    (handleGenerateImages scene catalog st gen).1.endFrame = st.endFrame ∧
    (handleGenerateImages scene catalog st gen).2
      = [⟨st.startFrame.prompt, "16:9", characterImages scene catalog⟩] := by
  simp [handleGenerateImages, handleGenerateStartFrame, h]

/-- Witness for C9 at a concrete scene whose start-frame generation fails. -/
theorem end_frame_not_attempted_witness :
    (handleGenerateImages ⟨"S01", "Cafe", "Morning", "Tense", [], "dolly"⟩ []
        ⟨⟨"sp", none⟩, ⟨"ep", none⟩, none⟩ (fun _ => .error .other)).1.endFrame
      = ⟨"ep", none⟩ ∧
    (handleGenerateImages ⟨"S01", "Cafe", "Morning", "Tense", [], "dolly"⟩ []
        ⟨⟨"sp", none⟩, ⟨"ep", none⟩, none⟩ (fun _ => .error .other)).2
      = [⟨"sp", "16:9", []⟩] := by
  have h := end_frame_not_attempted_on_start_failure
    ⟨"S01", "Cafe", "Morning", "Tense", [], "dolly"⟩ []
    ⟨⟨"sp", none⟩, ⟨"ep", none⟩, none⟩ (fun _ => .error .other) .other rfl
  exact ⟨h.1, h.2⟩

set_option maxRecDepth 8000 in
/-- Counterexample to C7 as stated: at a scene listing "Alice" against a
catalog entry "alice" that carries a portrait, the composed base prompt does
not contain the phrase "matches the provided reference image"; the code's
phrase is "who looks like the provided image reference". -/
theorem character_reference_phrase_counterexample :
    (([⟨"alice", "d", some "data:image/png;base64,AAA"⟩] : List Character).find?
        (fun c => jsToLower c.name == jsToLower "Alice")).isSome = true ∧
    optTruthy (Character.imageUrl ⟨"alice", "d", some "data:image/png;base64,AAA"⟩) = true ∧
    ¬ ("matches the provided reference image".toList <:+:
        (basePrompt ⟨"s", "n", "u", "X"⟩ ⟨"S01", "Cafe", "Morning", "Tense", ["Alice"], "dolly"⟩
          [⟨"alice", "d", some "data:image/png;base64,AAA"⟩]).toList) ∧
    characterDescriptor [⟨"alice", "d", some "data:image/png;base64,AAA"⟩] "Alice"
      = "alice who looks like the provided image reference" := by decide

/-- C7 (amended): a scene's character name resolves case-insensitively
against the catalog; a resolved entry with a portrait contributes its catalog
name followed by the literal phrase " who looks like the provided image
reference" instead of its text description, a resolved entry without a
portrait contributes its name and parenthesised description, and a name
matching no entry is used literally. -/
theorem character_resolution_case_insensitive (catalog : List Character) (nm : String) :
    (∀ c, catalog.find? (fun x => jsToLower x.name == jsToLower nm) = some c →
        c ∈ catalog ∧ jsToLower c.name = jsToLower nm ∧
        (optTruthy c.imageUrl = true →
          characterDescriptor catalog nm
            = c.name ++ " who looks like the provided image reference") ∧
        (optTruthy c.imageUrl = false →
          characterDescriptor catalog nm = c.name ++ " (" ++ c.description ++ ")")) ∧
    ((∀ x ∈ catalog, jsToLower x.name ≠ jsToLower nm) →
      characterDescriptor catalog nm = nm) := by
  constructor
  · intro c hc
    have hb : (jsToLower c.name == jsToLower nm) = true := by simpa using List.find?_some hc
    refine ⟨List.mem_of_find?_eq_some hc, eq_of_beq hb, ?_, ?_⟩
    · intro himg
      simp [characterDescriptor, hc, himg]
    · intro himg
      simp [characterDescriptor, hc, himg]
  · intro hall
    have hnone : catalog.find? (fun x => jsToLower x.name == jsToLower nm) = none := by
      rw [List.find?_eq_none]
      intro x hx hbeq
      exact hall x hx (eq_of_beq hbeq)
    simp [characterDescriptor, hnone]

set_option maxRecDepth 8000 in
/-- Witness for C7 (amended) at the spec's "Alice"/"alice" example. -/
theorem character_resolution_case_insensitive_witness :
    characterDescriptor [⟨"alice", "d", some "img"⟩] "Alice"
      = "alice who looks like the provided image reference" ∧
    jsToLower "alice" = jsToLower "Alice" := by
  have h := (character_resolution_case_insensitive [⟨"alice", "d", some "img"⟩] "Alice").1
    ⟨"alice", "d", some "img"⟩ (by decide)
  exact ⟨h.2.2.1 rfl, h.2.1⟩

/-! ## Lemmas about whitespace collapsing and trimming, for the base prompt -/

/-- Every character emitted by the collapsing pass is either a single space or
a non-whitespace character of the input. -/
lemma collapseWsAux_ws_space : ∀ (l : List Char) (b : Bool) (c : Char),
    c ∈ collapseWsAux b l → isJsWs c = true → c = ' '
  | [], b, c => by simp [collapseWsAux]
  | a :: l, b, c => by
    intro hmem hws
    by_cases ha : isJsWs a = true
    · rcases b with _ | _
      · rw [collapseWsAux, if_pos ha, if_neg (by simp)] at hmem
        rcases List.mem_cons.mp hmem with rfl | hmem'
        · rfl
        · exact collapseWsAux_ws_space l true c hmem' hws
      · rw [collapseWsAux, if_pos ha, if_pos rfl] at hmem
        exact collapseWsAux_ws_space l true c hmem hws
    · rw [collapseWsAux, if_neg ha] at hmem
      rcases List.mem_cons.mp hmem with rfl | hmem'
      · exact absurd hws ha
      · exact collapseWsAux_ws_space l false c hmem' hws

/-- The collapsing pass emits no two adjacent whitespace characters, and when
it starts inside a whitespace run (flag true) its first emitted character is
not whitespace. -/
lemma collapseWsAux_chain' : ∀ (l : List Char) (b : Bool),
    (collapseWsAux b l).Chain' NoWsPair ∧
    (∀ c, (collapseWsAux true l).head? = some c → isJsWs c = false)
  | [], b => by simp [collapseWsAux]
  | a :: l, b => by
    by_cases ha : isJsWs a = true
    · have ih := collapseWsAux_chain' l true
      constructor
      · rcases b with _ | _
        · rw [collapseWsAux, if_pos ha, if_neg (by simp)]
          rw [List.chain'_cons']
          refine ⟨fun y hy => ?_, ih.1⟩
          have := ih.2 y hy
          exact fun hpair => by simp [this] at hpair
        · rw [collapseWsAux, if_pos ha, if_pos rfl]
          exact ih.1
      · intro c hc
        rw [collapseWsAux, if_pos ha, if_pos rfl] at hc
        exact ih.2 c hc
    · have ih := collapseWsAux_chain' l false
      constructor
      · rw [collapseWsAux, if_neg ha, List.chain'_cons']
        refine ⟨fun y hy => ?_, ih.1⟩
        exact fun hpair => ha hpair.1
      · intro c hc
        rw [collapseWsAux, if_neg ha] at hc
        simp only [List.head?_cons, Option.some_inj] at hc
        subst hc
        exact Bool.not_eq_true _ ▸ (by simpa using ha)

/-- Trimming keeps only characters of the original list. -/
lemma jsTrimList_subset (l : List Char) : ∀ c, c ∈ jsTrimList l → c ∈ l := by
  intro c hc
  unfold jsTrimList at hc
  rw [List.mem_reverse] at hc
  have h1 := (List.dropWhile_suffix isJsWs).subset hc
  rw [List.mem_reverse] at h1
  exact (List.dropWhile_suffix isJsWs).subset h1

/-- Trimming preserves the no-adjacent-whitespace property. -/
lemma jsTrimList_chain' (l : List Char) (h : l.Chain' NoWsPair) :
    (jsTrimList l).Chain' NoWsPair := by
  have hsymm : ∀ x y : Char, NoWsPair x y → NoWsPair y x := by
    intro x y hxy hpair
    exact hxy ⟨hpair.2, hpair.1⟩
  have h1 : (l.dropWhile isJsWs).Chain' NoWsPair :=
    h.suffix (List.dropWhile_suffix isJsWs)
  have h2 : ((l.dropWhile isJsWs).reverse).Chain' NoWsPair := by
    rw [List.chain'_reverse]
    exact h1.imp (fun {x y} hxy => hsymm x y hxy)
  have h3 : (((l.dropWhile isJsWs).reverse.dropWhile isJsWs)).Chain' NoWsPair :=
    h2.suffix (List.dropWhile_suffix isJsWs)
  unfold jsTrimList
  rw [List.chain'_reverse]
  exact h3.imp (fun {x y} hxy => hsymm x y hxy)

/-- A list whose head fails the predicate is untouched by dropWhile. -/
lemma dropWhile_eq_self_of_head (p : Char → Bool) (l : List Char)
    (h : ∀ c, l.head? = some c → p c = false) : l.dropWhile p = l := by
  cases l with
  | nil => rfl
  | cons a t =>
    rw [List.dropWhile_cons, if_neg]
    simp [h a rfl]

/-- A suffix whose head is not dropped survives dropWhile of any prefix. -/
lemma suffix_dropWhile_append (p : Char → Bool) (T : List Char)
    (hhead : ∀ c, T.head? = some c → p c = false) :
    ∀ X : List Char, T <:+ (X ++ T).dropWhile p
  | [] => by
    rw [List.nil_append, dropWhile_eq_self_of_head p T hhead]
  | a :: X => by
    rw [List.cons_append, List.dropWhile_cons]
    by_cases hp : p a
    · rw [if_pos hp]
      exact suffix_dropWhile_append p T hhead X
    · rw [if_neg hp]
      exact (List.suffix_append X T).trans (List.suffix_cons a (X ++ T))

/-- A suffix that neither starts nor ends in whitespace survives trimming of
the whole string. -/
lemma suffix_jsTrimList_append (T : List Char) (hne : T ≠ [])
    (hhead : ∀ c, T.head? = some c → isJsWs c = false)
    (hlast : ∀ c, T.getLast? = some c → isJsWs c = false) :
    ∀ X : List Char, T <:+ jsTrimList (X ++ T) := by
  intro X
  obtain ⟨Y, hY⟩ := suffix_dropWhile_append isJsWs T hhead X
  unfold jsTrimList
  rw [← hY, List.reverse_append]
  have hrev : (T.reverse ++ Y.reverse).dropWhile isJsWs = T.reverse ++ Y.reverse := by
    refine dropWhile_eq_self_of_head isJsWs _ (fun c hc => ?_)
    have hTrev : T.reverse ≠ [] := by simpa using hne
    rw [List.head?_append_of_ne_nil _ hTrev] at hc
    rw [List.head?_reverse] at hc
    exact hlast c hc
  rw [hrev, List.reverse_append, List.reverse_reverse, List.reverse_reverse]
  exact List.suffix_append Y T

/-- Appending a suffix that the collapsing pass leaves untouched commutes with
collapsing the prefix. -/
lemma collapseWsAux_append_fixed (T : List Char) (hT : ∀ b, collapseWsAux b T = T) :
    ∀ (X : List Char) (b : Bool), collapseWsAux b (X ++ T) = collapseWsAux b X ++ T
  | [], b => by simp [collapseWsAux, hT b]
  | a :: X, b => by
    by_cases ha : isJsWs a = true
    · rcases b with _ | _
      · rw [List.cons_append, collapseWsAux, if_pos ha, if_neg (by simp),
          collapseWsAux_append_fixed T hT X true]
        rw [collapseWsAux, if_pos ha, if_neg (by simp), List.cons_append]
      · rw [List.cons_append, collapseWsAux, if_pos ha, if_pos rfl,
          collapseWsAux_append_fixed T hT X true]
        rw [collapseWsAux, if_pos ha, if_pos rfl]
    · rw [List.cons_append, collapseWsAux, if_neg ha,
        collapseWsAux_append_fixed T hT X false]
      rw [collapseWsAux, if_neg ha, List.cons_append]

set_option maxRecDepth 8000 in
/-- C8: for a scene whose character list is empty (so the character-details
list is empty and no character is matched), the composed base prompt contains
no whitespace character other than the space, never two adjacent whitespace
characters, and ends with the literal string "Characters present: None.". -/
theorem basePrompt_no_characters (style : Style) (scene : Scene)
    (catalog : List Character) (h : scene.characters = []) :
    (∀ c ∈ (basePrompt style scene catalog).toList, isJsWs c = true → c = ' ') ∧
    (basePrompt style scene catalog).toList.Chain' NoWsPair ∧
    "Characters present: None.".toList <:+ (basePrompt style scene catalog).toList := by
  have hdet : characterDetails catalog scene.characters = "" := by
    rw [h]; rfl
  have hbp : (basePrompt style scene catalog).toList
      = jsTrimList (collapseWsAux false
          (style.promptModifier ++ ". \n    Location: " ++ scene.location ++
           ". Time: " ++ scene.time ++ ". Mood: " ++ scene.mood ++
           ". \n    Characters present: " ++ "None" ++ ".").toList) := by
    simp [basePrompt, hdet, jsTrim, collapseWs, jsTrimList, String.toList]
  rw [hbp]
  have hconc : (". \n    Characters present: ".data ++ ("None".data ++ ".".data) : List Char)
      = ". \n    ".data ++ "Characters present: None.".data := by decide
  have hlist : (style.promptModifier ++ ". \n    Location: " ++ scene.location ++
        ". Time: " ++ scene.time ++ ". Mood: " ++ scene.mood ++
        ". \n    Characters present: " ++ "None" ++ ".").toList
      = (style.promptModifier ++ ". \n    Location: " ++ scene.location ++
        ". Time: " ++ scene.time ++ ". Mood: " ++ scene.mood ++
        ". \n    ").toList ++ "Characters present: None.".toList := by
    simp only [String.toList, String.data_append, List.append_assoc, hconc]
  refine ⟨?_, ?_, ?_⟩
  · intro c hc hws
    exact collapseWsAux_ws_space _ false c (jsTrimList_subset _ c hc) hws
  · exact jsTrimList_chain' _ (collapseWsAux_chain' _ false).1
  · rw [hlist, collapseWsAux_append_fixed "Characters present: None.".toList
      (by intro b; cases b <;> decide)]
    refine suffix_jsTrimList_append _ (by decide) ?_ ?_ _
    · intro c hc
      have h0 : ("Characters present: None.".toList).head? = some 'C' := rfl
      rw [h0, Option.some_inj] at hc
      rw [← hc]
      decide
    · intro c hc
      have h0 : ("Characters present: None.".toList).getLast? = some '.' := by decide
      rw [h0, Option.some_inj] at hc
      rw [← hc]
      decide

set_option maxRecDepth 8000 in
/-- Witness for C8 at the spec's concrete example (modifier X, Cafe, Morning,
Tense, no characters). -/
theorem basePrompt_no_characters_witness :
    "Characters present: None.".toList <:+
      (basePrompt ⟨"s", "Cinematic", "u", "X"⟩
        ⟨"S01", "Cafe", "Morning", "Tense", [], "dolly"⟩ []).toList ∧
    (∀ c ∈ (basePrompt ⟨"s", "Cinematic", "u", "X"⟩
        ⟨"S01", "Cafe", "Morning", "Tense", [], "dolly"⟩ []).toList,
      isJsWs c = true → c = ' ') := by
  have h := basePrompt_no_characters ⟨"s", "Cinematic", "u", "X"⟩
    ⟨"S01", "Cafe", "Morning", "Tense", [], "dolly"⟩ [] rfl
  exact ⟨h.2.2, h.1⟩

/-! ## Lemmas about comma splitting, for the video seed image -/

/-- Splitting a separator-free list yields a single segment. -/
lemma jsSplitAux_no_sep (sep : Char) : ∀ (l acc : List Char), sep ∉ l →
    jsSplitAux sep l acc = [String.mk (acc.reverse ++ l)]
  | [], acc => by simp [jsSplitAux]
  | c :: l, acc => by
    intro hmem
    have hc : ¬(c = sep) := fun h => hmem (h ▸ List.mem_cons_self c l)
    rw [jsSplitAux, if_neg hc,
      jsSplitAux_no_sep sep l (c :: acc) (fun h => hmem (List.mem_cons_of_mem c h))]
    simp

/-- With at most one separator comma, segment 1 of the split is exactly the
part after the first comma (none when there is no comma). -/
lemma jsSplitAux_get1_of_count_le_one : ∀ (l acc : List Char), l.count ',' ≤ 1 →
    (jsSplitAux ',' l acc).get? 1
      = (match l.dropWhile (fun c => c ≠ ',') with
         | [] => none
         | _ :: rest => some (String.mk rest))
  | [], acc => by simp [jsSplitAux]
  | c :: l, acc => by
    intro hcount
    by_cases hc : c = ','
    · subst hc
      rw [jsSplitAux, if_pos rfl]
      have hzero : l.count ',' = 0 := by
        rw [List.count_cons] at hcount
        simpa using hcount
      have hnot : ',' ∉ l := List.count_eq_zero.mp hzero
      rw [jsSplitAux_no_sep ',' l [] hnot]
      simp [List.dropWhile]
    · rw [jsSplitAux, if_neg hc]
      have hcount' : l.count ',' ≤ 1 := by
        rw [List.count_cons] at hcount
        omega
      rw [jsSplitAux_get1_of_count_le_one l (c :: acc) hcount']
      have : (fun x => decide (x ≠ ',')) c = true := by simpa using hc
      rw [List.dropWhile_cons, if_pos (by simpa using hc)]

/-- Counterexample to C10 as stated: on a data URL whose payload itself
contains a comma, the submitted seed bytes are the segment between the first
and second commas, not the whole substring after the first comma. -/
theorem videoSubmission_seed_bytes_counterexample :
    (videoSubmission "p" "data:,AA,BB").imageBytes = some "AA" ∧
    substringAfterFirstComma "data:,AA,BB" = some "AA,BB" ∧
    (videoSubmission "p" "data:,AA,BB").imageBytes
      ≠ substringAfterFirstComma "data:,AA,BB" := by decide

/-- C10 (amended): for every start-frame data URL containing at most one
comma (as with the base64 data URLs produced by the image generator), the
video job submission takes the seed image bytes as the substring after the
first comma, and it always declares the seed image's mime type as image/png
regardless of the data URL header. -/
theorem videoSubmission_seed_bytes (prompt s : String)
    (h : s.toList.count ',' ≤ 1) :
    (videoSubmission prompt s).imageBytes = substringAfterFirstComma s ∧
    (videoSubmission prompt s).mimeType = "image/png" := by
  refine ⟨?_, rfl⟩
  show (jsSplit ',' s).get? 1 = substringAfterFirstComma s
  rw [jsSplit, substringAfterFirstComma]
  exact jsSplitAux_get1_of_count_le_one s.toList [] h

/-- Witness for C10 (amended) at a single-comma base64 data URL. -/
theorem videoSubmission_seed_bytes_witness :
    (videoSubmission "p" "data:image/jpeg;base64,QUJD").imageBytes
      = substringAfterFirstComma "data:image/jpeg;base64,QUJD" ∧
    (videoSubmission "p" "data:image/jpeg;base64,QUJD").mimeType = "image/png" :=
  videoSubmission_seed_bytes "p" "data:image/jpeg;base64,QUJD" (by decide)

end S2S
